import Mathlib

/-!
Shallow embedding of `src/complete_analysis.py`, a single-pass batch script
that loads a CSV of Uber trip records, cleans it, derives feature columns,
aggregates, renders charts and writes a text report.

Machine floats are modelled by `ℚ` (exact CSV decimals) for data columns and
by `ℝ` for the one genuinely irrational computation (`np.sqrt` in the
distance column).  A pandas missing value (`NaN` in a column) is modelled by
`Option`: a raw CSV cell is `Option _`, and aggregate cells that pandas fills
with `NaN` (e.g. `reindex` over weekdays absent from the data) are `none`.
-/

namespace UberAnalysis

/-- Calendar fields that the script reads off `pickup_datetime` via the
pandas `.dt` accessor (lines 69-74 of the source).  `dow` is
`dt.dayofweek`, which pandas guarantees to lie in `0=Monday .. 6=Sunday`,
hence `Fin 7`. -/
structure Timestamp where
  year : Int
  month : Nat
  day : Nat
  hour : Nat
  minute : Nat
  dow : Fin 7
deriving DecidableEq

/-- One raw CSV row of `Data/raw/uber.csv` with the schema the script uses:
identifier, fare, pickup timestamp, pickup/dropoff coordinates, passenger
count.  Every field is `Option`: `none` is a missing cell. -/
structure RawTrip where
  key : Option String
  fare_amount : Option ℚ
  pickup_datetime : Option Timestamp
  pickup_longitude : Option ℚ
  pickup_latitude : Option ℚ
  dropoff_longitude : Option ℚ
  dropoff_latitude : Option ℚ
  passenger_count : Option Int
deriving DecidableEq

/-- Embeds `df.dropna()`: keeps a row iff no field is missing (source line 44). -/
def noMissing (r : RawTrip) : Bool :=
  r.key.isSome && r.fare_amount.isSome && r.pickup_datetime.isSome &&
    r.pickup_longitude.isSome && r.pickup_latitude.isSome &&
    r.dropoff_longitude.isSome && r.dropoff_latitude.isSome &&
    r.passenger_count.isSome

/-- Filter `df[df['fare_amount'] > 0]` (source line 53); a pandas comparison with a
missing value is `False`, so a `none` cell never passes the filter. -/
def fare_pos (r : RawTrip) : Bool :=
  match r.fare_amount with
  | some f => decide (0 < f)
  | none => false

/-- Filter `df[df['fare_amount'] < 200]` (source line 54). -/
def fare_below_cap (r : RawTrip) : Bool :=
  match r.fare_amount with
  | some f => decide (f < 200)
  | none => false

/-- Filter `df[df['passenger_count'] > 0]` (source line 55). -/
def pax_pos (r : RawTrip) : Bool :=
  match r.passenger_count with
  | some p => decide (0 < p)
  | none => false

/-- Filter `df[df['passenger_count'] <= 6]` (source line 56). -/
def pax_le_six (r : RawTrip) : Bool :=
  match r.passenger_count with
  | some p => decide (p ≤ 6)
  | none => false

/-- The Cleaner (source lines 44-56): `dropna`, then the four conjunctive
range filters, in the order the script applies them. -/
def clean (rows : List RawTrip) : List RawTrip :=
  ((((rows.filter noMissing).filter fare_pos).filter fare_below_cap).filter
    pax_pos).filter pax_le_six

/-- A cleaned row: every field present.  The rows surviving `clean` are in
bijection with these via `toTrip`. -/
structure Trip where
  key : String
  fare_amount : ℚ
  pickup_datetime : Timestamp
  pickup_longitude : ℚ
  pickup_latitude : ℚ
  dropoff_longitude : ℚ
  dropoff_latitude : ℚ
  passenger_count : Int
deriving DecidableEq

/-- View a raw row with no missing field as a `Trip`. -/
def toTrip (r : RawTrip) : Option Trip :=
  match r.key, r.fare_amount, r.pickup_datetime, r.pickup_longitude,
      r.pickup_latitude, r.dropoff_longitude, r.dropoff_latitude,
      r.passenger_count with
  | some k, some f, some ts, some plon, some plat, some dlon, some dlat,
      some pc => some ⟨k, f, ts, plon, plat, dlon, dlat, pc⟩
  | _, _, _, _, _, _, _, _ => none

/-- The cleaned dataset as total records. -/
def cleanedTrips (rows : List RawTrip) : List Trip :=
  (clean rows).filterMap toTrip

/-- Column `df['hour']` (source line 69). -/
def hourOf (t : Trip) : Nat := t.pickup_datetime.hour

/-- Column `df['month']` (source line 71). -/
def monthOf (t : Trip) : Nat := t.pickup_datetime.month

/-- Maps `dt.dayofweek` to the weekday name produced by `dt.day_name()`
(0=Monday .. 6=Sunday). -/
def dayName (d : Fin 7) : String :=
  match d.val with
  | 0 => "Monday"
  | 1 => "Tuesday"
  | 2 => "Wednesday"
  | 3 => "Thursday"
  | 4 => "Friday"
  | 5 => "Saturday"
  | _ => "Sunday"

/-- Column `df['weekday']` (source line 73). -/
def weekdayName (t : Trip) : String := dayName t.pickup_datetime.dow

/-- The peak-hour lambda (source line 77):
`'Peak' if (7 <= x <= 9) or (17 <= x <= 19) else 'Off-Peak'`. -/
def is_peak (x : Nat) : String :=
  if (7 ≤ x ∧ x ≤ 9) ∨ (17 ≤ x ∧ x ≤ 19) then "Peak" else "Off-Peak"

/-- Function `time_category` (source lines 80-88), the four if/elif buckets. -/
def time_category (hour : Nat) : String :=
  if 5 ≤ hour ∧ hour < 12 then "Morning"
  else if 12 ≤ hour ∧ hour < 17 then "Afternoon"
  else if 17 ≤ hour ∧ hour < 21 then "Evening"
  else "Night"

/-- The distance formula (source lines 93-94):
`np.sqrt((dlon - plon)**2 + (dlat - plat)**2)`, over `ℝ`. -/
noncomputable def distance (plon plat dlon dlat : ℝ) : ℝ :=
  Real.sqrt ((dlon - plon) ^ 2 + (dlat - plat) ^ 2)

/-- Column `df['distance']` of an enriched record. -/
noncomputable def trip_distance (t : Trip) : ℝ :=
  distance t.pickup_longitude t.pickup_latitude
    t.dropoff_longitude t.dropoff_latitude

/-- Models `df.groupby(key).size()`: one `(group value, row count)` pair per
distinct key value occurring in the data (source lines 167, 197, 227, 248:
the `size()` / `agg 'count'` aggregations). -/
def group_sizes {α : Type} [DecidableEq α] (key : Trip → α)
    (df : List Trip) : List (α × Nat) :=
  ((df.map key).dedup).map (fun k => (k, df.countP (fun t => key t == k)))

/-- The fixed Monday-to-Sunday order the script reindexes by
(source lines 181-183 and 197-199). -/
def weekOrder : List String :=
  ["Monday", "Tuesday", "Wednesday", "Thursday", "Friday", "Saturday",
    "Sunday"]

/-- Models `df.groupby('weekday').size().reindex([...])` (source lines 197-199):
for each weekday in the fixed order, its ride count; a weekday absent from
the data gets pandas `NaN` (here `none`), since `reindex` fills missing
labels with `NaN` and upcasts the counts to float. -/
def weekday_rides (df : List Trip) : List (String × Option ℚ) :=
  weekOrder.map (fun d =>
    (d,
      let n := df.countP (fun t => weekdayName t == d)
      if n = 0 then none else some (n : ℚ)))

/-- Models `df.groupby('weekday')['fare_amount'].mean().reindex([...])`
(source lines 181-183): per weekday in the fixed order, the mean fare of its
group; a weekday with no rows gets `NaN` (`none`). -/
def weekday_fare (df : List Trip) : List (String × Option ℚ) :=
  weekOrder.map (fun d =>
    (d,
      let g := (df.filter (fun t => weekdayName t == d)).map Trip.fare_amount
      if g.length = 0 then none else some (g.sum / g.length)))

/-- pandas `Series.quantile(q)` with the default linear interpolation:
on the sorted values `s` of length `n`, the value at fractional position
`q * (n - 1)`; `NaN` (`none`) on an empty series. -/
def quantile (q : ℚ) (l : List ℚ) : Option ℚ :=
  let s := l.insertionSort (· ≤ ·)
  match s with
  | [] => none
  | _ =>
    let n := s.length
    let pos : ℚ := q * ((n : ℚ) - 1)
    let i : Nat := pos.floor.toNat
    let frac : ℚ := pos - (i : ℚ)
    let x0 := s.getD i 0
    let x1 := s.getD (min (i + 1) (n - 1)) 0
    some (x0 + frac * (x1 - x0))

/-- The IQR outlier rows (source lines 114-117):
`df[(fare < Q1 - 1.5*IQR) | (fare > Q3 + 1.5*IQR)]`.  When the quantiles
are `NaN` (empty data) every comparison is `False`, so no row is selected. -/
def outlier_rows (df : List Trip) : List Trip :=
  match quantile (1 / 4) (df.map Trip.fare_amount),
      quantile (3 / 4) (df.map Trip.fare_amount) with
  | some q1, some q3 =>
    let iqr := q3 - q1
    df.filter (fun t =>
      decide (t.fare_amount < q1 - 3 / 2 * iqr) ||
        decide (t.fare_amount > q3 + 3 / 2 * iqr))
  | _, _ => []

/-- The outlier percentage `len(outliers)/len(df)*100` (source line 118).
When `len(df) = 0` the Python expression raises `ZeroDivisionError`
(the run crashes); the crash is modelled by `none`. -/
def outlier_percent (df : List Trip) : Option ℚ :=
  if df.length = 0 then none
  else some (((outlier_rows df).length : ℚ) / (df.length : ℚ) * 100)

/-- The raster chart files the script writes, in `plt.savefig` order
(source lines 135, 148, 162, 176, 192, 208, 222, 243, 266, 304). -/
def chart_files : List String :=
  ["powerbi/fare_distribution.png",
    "powerbi/boxPlot.png",
    "powerbi/fare_hour.png",
    "powerbi/rides_hour.png",
    "powerbi/fare_week.png",
    "powerbi/rides_weekday.png",
    "powerbi/fare_monthly.png",
    "powerbi/peak_analysis.png",
    "powerbi/passenger_analysis.png",
    "powerbi/summary_analysis.png"]

/-- The delimited intermediate artifacts (source lines 62 and 102). -/
def delimited_files : List String :=
  ["Data/cleaned/uber_cleaned.csv", "Data/enhanced/uber_enhanced.csv"]

/-- The text report artifact (source line 354). -/
def report_files : List String :=
  ["Documents/analysis_report.txt"]

/-- Maximum of a list of values, `none` on the empty list. -/
def listMax {α : Type} [LinearOrder α] : List α → Option α
  | [] => none
  | x :: xs =>
    match listMax xs with
    | none => some x
    | some m => some (max x m)

/-- Minimum of a list of values, `none` on the empty list. -/
def listMin {α : Type} [LinearOrder α] : List α → Option α
  | [] => none
  | x :: xs =>
    match listMin xs with
    | none => some x
    | some m => some (min x m)

/-- pandas `Series.idxmax()` on a labelled series: the label of the first
occurrence of the maximum value, skipping `NaN` entries; used by the report
on `weekday_rides` and `weekday_fare` (source lines 329-330). -/
def idxmax (l : List (String × Option ℚ)) : Option String :=
  match listMax (l.filterMap Prod.snd) with
  | none => none
  | some m => (l.find? (fun p => p.2 == some m)).map Prod.fst

/-- pandas `Series.mode()[0]` (source line 333): among the values of
maximal multiplicity, the smallest (pandas sorts the modal values
ascending and `[0]` takes the first). -/
def mode_first (l : List Int) : Option Int :=
  match listMax (l.dedup.map (fun v => l.count v)) with
  | none => none
  | some m => listMin (l.dedup.filter (fun v => l.count v == m))

/-- Models `df['passenger_count'].mode()[0]` in the report (source line 333). -/
def most_common_passengers (df : List Trip) : Option Int :=
  mode_first (df.map Trip.passenger_count)

/-- A concrete cleaned trip whose pickup fell on a Monday (2015-05-04). -/
def monday_trip : Trip :=
  ⟨"2015-05-04 10:00:00.0000001", 10, ⟨2015, 5, 4, 10, 0, 0⟩, -74, 40,
    -74, 40, 1⟩

/-- A concrete raw row that is complete but has a negative fare, so the
Cleaner drops it and the cleaned dataset is empty. -/
def bad_raw : RawTrip :=
  { key := some "2015-05-07 19:52:06.0000003"
    fare_amount := some (-5)
    pickup_datetime := some ⟨2015, 5, 7, 19, 52, 3⟩
    pickup_longitude := some (-74)
    pickup_latitude := some 40
    dropoff_longitude := some (-74)
    dropoff_latitude := some 40
    passenger_count := some 1 }

/-- C1: the Cleaner returns exactly the subset of input rows that have no
missing field, whose fare lies strictly between 0 and 200, and whose
passenger count lies in (0, 6]; in particular every cleaned record
satisfies these invariants. -/
theorem c1_clean_exact_subset (rows : List RawTrip) (r : RawTrip) :
    r ∈ clean rows ↔
      r ∈ rows ∧ noMissing r = true ∧
        (∃ f, r.fare_amount = some f ∧ 0 < f ∧ f < 200) ∧
        (∃ p, r.passenger_count = some p ∧ 0 < p ∧ p ≤ 6) := by
  simp only [clean, List.mem_filter]
  constructor
  · rintro ⟨⟨⟨⟨⟨hmem, hnm⟩, hfp⟩, hfc⟩, hpp⟩, hpl⟩
    refine ⟨hmem, hnm, ?_, ?_⟩
    · unfold fare_pos at hfp
      unfold fare_below_cap at hfc
      cases hfa : r.fare_amount with
      | none => rw [hfa] at hfp; cases hfp
      | some f =>
        rw [hfa] at hfp hfc
        exact ⟨f, rfl, of_decide_eq_true hfp, of_decide_eq_true hfc⟩
    · unfold pax_pos at hpp
      unfold pax_le_six at hpl
      cases hpc : r.passenger_count with
      | none => rw [hpc] at hpp; cases hpp
      | some p =>
        rw [hpc] at hpp hpl
        exact ⟨p, rfl, of_decide_eq_true hpp, of_decide_eq_true hpl⟩
  · rintro ⟨hmem, hnm, ⟨f, hf, hf0, hf200⟩, ⟨p, hp, hp0, hp6⟩⟩
    refine ⟨⟨⟨⟨⟨hmem, hnm⟩, ?_⟩, ?_⟩, ?_⟩, ?_⟩
    · unfold fare_pos; rw [hf]; exact decide_eq_true hf0
    · unfold fare_below_cap; rw [hf]; exact decide_eq_true hf200
    · unfold pax_pos; rw [hp]; exact decide_eq_true hp0
    · unfold pax_le_six; rw [hp]; exact decide_eq_true hp6

/-- C5: `is_peak` yields "Peak" exactly on hours 7, 8, 9, 17, 18, 19 and
"Off-Peak" on every other hour; in particular hour 9 is Peak, 10 is
Off-Peak, 19 is Peak and 20 is Off-Peak. -/
theorem c5_is_peak_iff (h : Nat) :
    (is_peak h = "Peak" ↔
      h = 7 ∨ h = 8 ∨ h = 9 ∨ h = 17 ∨ h = 18 ∨ h = 19) ∧
    (is_peak h = "Off-Peak" ↔
      ¬(h = 7 ∨ h = 8 ∨ h = 9 ∨ h = 17 ∨ h = 18 ∨ h = 19)) ∧
    is_peak 9 = "Peak" ∧ is_peak 10 = "Off-Peak" ∧
    is_peak 19 = "Peak" ∧ is_peak 20 = "Off-Peak" := by
  have hne : ("Off-Peak" : String) ≠ "Peak" := by decide
  refine ⟨?_, ?_, by decide, by decide, by decide, by decide⟩
  · unfold is_peak
    by_cases hc : (7 ≤ h ∧ h ≤ 9) ∨ (17 ≤ h ∧ h ≤ 19)
    · rw [if_pos hc]; exact iff_of_true rfl (by omega)
    · rw [if_neg hc]; exact iff_of_false hne (by omega)
  · unfold is_peak
    by_cases hc : (7 ≤ h ∧ h ≤ 9) ∨ (17 ≤ h ∧ h ≤ 19)
    · rw [if_pos hc]
      exact iff_of_false (fun he => hne he.symm) (fun hn => hn (by omega))
    · rw [if_neg hc]; exact iff_of_true rfl (by omega)

/-- C6: for every hour 0..23, `time_category` is one of the four bucket
names, with Morning exactly on [5,12), Afternoon on [12,17), Evening on
[17,21) and Night exactly on the rest ([0,5) and [21,24)); the buckets are
disjoint and cover all 24 hours. -/
theorem c6_time_category_partition (h : Nat) (hlt : h < 24) :
    (time_category h = "Morning" ∨ time_category h = "Afternoon" ∨
      time_category h = "Evening" ∨ time_category h = "Night") ∧
    (time_category h = "Morning" ↔ 5 ≤ h ∧ h < 12) ∧
    (time_category h = "Afternoon" ↔ 12 ≤ h ∧ h < 17) ∧
    (time_category h = "Evening" ↔ 17 ≤ h ∧ h < 21) ∧
    (time_category h = "Night" ↔ h < 5 ∨ 21 ≤ h) := by
  interval_cases h <;> decide

/-- Witness for C6 at hour 13: the hypothesis `13 < 24` holds and the
Afternoon characterisation applies. -/
theorem c6_time_category_partition_witness : time_category 13 = "Afternoon" := by
  have hx := c6_time_category_partition 13 (by decide)
  exact hx.2.2.1.mpr (by decide)

/-- C10: a record flagged "Peak" has hour in 7..9, in which case its time
category is Morning, or hour in 17..19, in which case it is Evening; a Peak
record is never in the Afternoon or Night bucket. -/
theorem c10_peak_never_afternoon_or_night (h : Nat)
    (hp : is_peak h = "Peak") :
    (((7 ≤ h ∧ h ≤ 9) ∧ time_category h = "Morning") ∨
      ((17 ≤ h ∧ h ≤ 19) ∧ time_category h = "Evening")) ∧
    time_category h ≠ "Afternoon" ∧ time_category h ≠ "Night" := by
  have hrange : (7 ≤ h ∧ h ≤ 9) ∨ (17 ≤ h ∧ h ≤ 19) := by
    by_contra hc
    unfold is_peak at hp
    rw [if_neg hc] at hp
    exact absurd hp (by decide)
  have hd : ((7 ≤ h ∧ h ≤ 9) ∧ time_category h = "Morning") ∨
      ((17 ≤ h ∧ h ≤ 19) ∧ time_category h = "Evening") := by
    rcases hrange with hr | hr
    · left
      refine ⟨hr, ?_⟩
      unfold time_category
      rw [if_pos ⟨by omega, by omega⟩]
    · right
      refine ⟨hr, ?_⟩
      unfold time_category
      rw [if_neg (by omega), if_neg (by omega), if_pos ⟨by omega, by omega⟩]
  refine ⟨hd, ?_, ?_⟩ <;> rcases hd with ⟨_, he⟩ | ⟨_, he⟩ <;> rw [he] <;>
    decide

/-- Witness for C10 at hour 8: `is_peak 8 = "Peak"` holds and the trip is
categorised Morning. -/
theorem c10_peak_never_afternoon_or_night_witness :
    is_peak 8 = "Peak" ∧ time_category 8 = "Morning" := by
  have hx := c10_peak_never_afternoon_or_night 8 (by decide)
  refine ⟨by decide, ?_⟩
  rcases hx.1 with ⟨_, hm⟩ | ⟨⟨hc, _⟩, _⟩
  · exact hm
  · omega

/-- C2 evaluated at `bad_raw`: the Cleaner drops every row of the input
`[bad_raw]`, and on the resulting empty cleaned set the outlier-percentage
computation `len(outliers)/len(df)*100` (source line 118) is undefined
(`none`, a `ZeroDivisionError` crash in the script) instead of the
degenerate "no data" result the specification requires. -/
theorem c2_empty_clean_percentage_undefined :
    cleanedTrips [bad_raw] = [] ∧
      outlier_percent (cleanedTrips [bad_raw]) = none := by decide

/-- Counterexample to C3: the script saves ten chart images, not eleven. -/
theorem c3_counterexample : chart_files.length ≠ 11 := by decide

/-- C3 as amended: a completed run writes exactly ten distinct raster image
files under the chart-output directory `powerbi/`, two delimited files and
one text report file, all at fixed relative paths. -/
theorem c3_output_files :
    chart_files.length = 10 ∧ chart_files.Nodup ∧
    chart_files.all (fun p => p.data.take 8 == "powerbi/".data) = true ∧
    chart_files.all (fun p => p.data.drop (p.data.length - 4) == ".png".data)
      = true ∧
    delimited_files.length = 2 ∧ report_files.length = 1 := by decide

/-- Counterexample to C4: on the dataset `[monday_trip]`, which has no
Sunday rides, the weekday ride aggregate reports Sunday with a missing
(`NaN`) count, not with count 0 as the claim states. -/
theorem c4_counterexample :
    ("Sunday", (none : Option ℚ)) ∈ weekday_rides [monday_trip] ∧
    ("Sunday", (some 0 : Option ℚ)) ∉ weekday_rides [monday_trip] ∧
    ("Sunday", (some 0 : Option ℚ)) ∉ weekday_fare [monday_trip] := by
  decide

/-- C4 as amended: on a cleaned dataset with zero rides on any weekday `d`,
the weekday aggregates still list all seven weekdays in the fixed
Monday-to-Sunday order, and `d` appears with a missing (`NaN`) count and a
missing (`NaN`) mean fare, rather than being omitted or crashing. -/
theorem c4_missing_weekday_kept (df : List Trip) (d : String)
    (hd : d ∈ weekOrder)
    (hs : df.countP (fun t => weekdayName t == d) = 0) :
    (weekday_rides df).map Prod.fst = weekOrder ∧
    (weekday_fare df).map Prod.fst = weekOrder ∧
    (d, (none : Option ℚ)) ∈ weekday_rides df ∧
    (d, (none : Option ℚ)) ∈ weekday_fare df := by
  have hfil : df.filter (fun t => weekdayName t == d) = [] := by
    rw [List.filter_eq_nil_iff]
    intro t ht hpt
    have := List.countP_eq_zero.mp hs t ht
    exact this hpt
  refine ⟨?_, ?_, ?_, ?_⟩
  · rfl
  · rfl
  · unfold weekday_rides
    refine List.mem_map.mpr ⟨d, hd, ?_⟩
    simp only [hs]
    rfl
  · unfold weekday_fare
    refine List.mem_map.mpr ⟨d, hd, ?_⟩
    simp only [hfil]
    rfl

/-- Witness for C4 at the concrete dataset `[monday_trip]` and the concrete
weekday Sunday, on which it has zero rides: both hypotheses hold by
evaluation and the amended claim follows. -/
theorem c4_missing_weekday_kept_witness :
    (weekday_rides [monday_trip]).map Prod.fst = weekOrder ∧
    (weekday_fare [monday_trip]).map Prod.fst = weekOrder ∧
    ("Sunday", (none : Option ℚ)) ∈ weekday_rides [monday_trip] ∧
    ("Sunday", (none : Option ℚ)) ∈ weekday_fare [monday_trip] :=
  c4_missing_weekday_kept [monday_trip] "Sunday" (by decide) (by decide)

/-- C7: the derived distance is the Euclidean norm of the coordinate
differences: it is nonnegative, swapping pickup and dropoff leaves its
value unchanged, and it vanishes exactly when the pickup coordinates equal
the dropoff coordinates. -/
theorem c7_distance_euclidean_norm (plon plat dlon dlat : ℝ) :
    0 ≤ distance plon plat dlon dlat ∧
    distance plon plat dlon dlat = distance dlon dlat plon plat ∧
    (distance plon plat dlon dlat = 0 ↔ plon = dlon ∧ plat = dlat) := by
  refine ⟨Real.sqrt_nonneg _, ?_, ?_⟩
  · unfold distance
    congr 1
    ring
  · unfold distance
    rw [Real.sqrt_eq_zero']
    constructor
    · intro hle
      have ha := sq_nonneg (dlon - plon)
      have hb := sq_nonneg (dlat - plat)
      constructor
      · have h1 : (dlon - plon) ^ 2 = 0 := by nlinarith
        have := (pow_eq_zero_iff (by norm_num : 2 ≠ 0)).mp h1
        linarith [sub_eq_zero.mp this]
      · have h2 : (dlat - plat) ^ 2 = 0 := by nlinarith
        have := (pow_eq_zero_iff (by norm_num : 2 ≠ 0)).mp h2
        linarith [sub_eq_zero.mp this]
    · rintro ⟨h1, h2⟩
      rw [h1, h2]
      simp

/-- Auxiliary: a `countP` against a fixed key value is a `count` over the
mapped key column. -/
theorem countP_key_eq_count {α : Type} [DecidableEq α] (key : Trip → α)
    (df : List Trip) (k : α) :
    df.countP (fun t => key t == k) = (df.map key).count k := by
  show _ = (df.map key).countP (· == k)
  rw [List.countP_map]
  rfl

/-- Auxiliary: the group sizes of any grouping sum to the number of rows. -/
theorem group_sizes_sum {α : Type} [DecidableEq α] (key : Trip → α)
    (df : List Trip) :
    ((group_sizes key df).map Prod.snd).sum = df.length := by
  unfold group_sizes
  rw [List.map_map]
  have hmap : (df.map key).dedup.map
      (Prod.snd ∘ fun k => (k, df.countP (fun t => key t == k))) =
      (df.map key).dedup.map (fun k => (df.map key).count k) := by
    apply List.map_congr_left
    intro k _
    exact countP_key_eq_count key df k
  rw [hmap, List.sum_map_count_dedup_eq_length, List.length_map]

/-- C8: for each of the five grouping keys the script aggregates by (hour,
weekday, month, passenger count, peak flag), the per-group record counts
sum to the total number of cleaned records. -/
theorem c8_group_counts_sum_to_total (df : List Trip) :
    ((group_sizes hourOf df).map Prod.snd).sum = df.length ∧
    ((group_sizes weekdayName df).map Prod.snd).sum = df.length ∧
    ((group_sizes monthOf df).map Prod.snd).sum = df.length ∧
    ((group_sizes Trip.passenger_count df).map Prod.snd).sum = df.length ∧
    ((group_sizes (fun t => is_peak (hourOf t)) df).map Prod.snd).sum
      = df.length :=
  ⟨group_sizes_sum _ _, group_sizes_sum _ _, group_sizes_sum _ _,
    group_sizes_sum _ _, group_sizes_sum _ _⟩

/-- Auxiliary: `listMax` is `none` only on the empty list. -/
theorem listMax_eq_none {α : Type} [LinearOrder α] {l : List α}
    (h : listMax l = none) : l = [] := by
  cases l with
  | nil => rfl
  | cons a as =>
    unfold listMax at h
    cases hh : listMax as with
    | none => rw [hh] at h; cases h
    | some m => rw [hh] at h; cases h

/-- Auxiliary: a nonempty list has a `listMax`. -/
theorem listMax_eq_some {α : Type} [LinearOrder α] {l : List α} {x : α}
    (hx : x ∈ l) : ∃ m, listMax l = some m := by
  cases l with
  | nil => cases hx
  | cons a as =>
    unfold listMax
    cases hh : listMax as with
    | none => exact ⟨a, rfl⟩
    | some m => exact ⟨max a m, rfl⟩

/-- Auxiliary: `listMax` returns an element that bounds the whole list. -/
theorem listMax_spec {α : Type} [LinearOrder α] {l : List α} {m : α}
    (hm : listMax l = some m) : m ∈ l ∧ ∀ x ∈ l, x ≤ m := by
  induction l generalizing m with
  | nil => cases hm
  | cons a as ih =>
    unfold listMax at hm
    cases hh : listMax as with
    | none =>
      rw [hh] at hm
      obtain rfl : a = m := Option.some.inj hm
      have : as = [] := listMax_eq_none hh
      subst this
      exact ⟨List.mem_singleton.mpr rfl, by
        intro x hx
        rw [List.mem_singleton.mp hx]⟩
    | some mm =>
      rw [hh] at hm
      obtain rfl : max a mm = m := Option.some.inj hm
      obtain ⟨hmem, hmax⟩ := ih hh
      constructor
      · rcases max_choice a mm with hc | hc <;> rw [hc]
        · exact List.mem_cons_self a as
        · exact List.mem_cons_of_mem a hmem
      · intro x hx
        rcases List.mem_cons.mp hx with rfl | hxs
        · exact le_max_left _ _
        · exact le_trans (hmax x hxs) (le_max_right _ _)

/-- Auxiliary: a nonempty list has a `listMin`. -/
theorem listMin_eq_some {α : Type} [LinearOrder α] {l : List α} {x : α}
    (hx : x ∈ l) : ∃ m, listMin l = some m := by
  cases l with
  | nil => cases hx
  | cons a as =>
    unfold listMin
    cases hh : listMin as with
    | none => exact ⟨a, rfl⟩
    | some m => exact ⟨min a m, rfl⟩

/-- Auxiliary: `listMin` is `none` only on the empty list. -/
theorem listMin_eq_none {α : Type} [LinearOrder α] {l : List α}
    (h : listMin l = none) : l = [] := by
  cases l with
  | nil => rfl
  | cons a as =>
    unfold listMin at h
    cases hh : listMin as with
    | none => rw [hh] at h; cases h
    | some m => rw [hh] at h; cases h

/-- Auxiliary: `listMin` returns an element below the whole list. -/
theorem listMin_spec {α : Type} [LinearOrder α] {l : List α} {m : α}
    (hm : listMin l = some m) : m ∈ l ∧ ∀ x ∈ l, m ≤ x := by
  induction l generalizing m with
  | nil => cases hm
  | cons a as ih =>
    unfold listMin at hm
    cases hh : listMin as with
    | none =>
      rw [hh] at hm
      obtain rfl : a = m := Option.some.inj hm
      have : as = [] := listMin_eq_none hh
      subst this
      exact ⟨List.mem_singleton.mpr rfl, by
        intro x hx
        rw [List.mem_singleton.mp hx]⟩
    | some mm =>
      rw [hh] at hm
      obtain rfl : min a mm = m := Option.some.inj hm
      obtain ⟨hmem, hmin⟩ := ih hh
      constructor
      · rcases min_choice a mm with hc | hc <;> rw [hc]
        · exact List.mem_cons_self a as
        · exact List.mem_cons_of_mem a hmem
      · intro x hx
        rcases List.mem_cons.mp hx with rfl | hxs
        · exact min_le_left _ _
        · exact le_trans (min_le_right _ _) (hmin x hxs)

/-- Auxiliary: whenever a labelled series has a non-`NaN` entry, `idxmax`
returns a label carrying the maximum value of the series. -/
theorem idxmax_spec {l : List (String × Option ℚ)} {k : String} {v : ℚ}
    (hmem : (k, some v) ∈ l) :
    ∃ b m, idxmax l = some b ∧ (b, some m) ∈ l ∧
      ∀ d w, (d, some w) ∈ l → w ≤ m := by
  have hv : v ∈ l.filterMap Prod.snd :=
    List.mem_filterMap.mpr ⟨(k, some v), hmem, rfl⟩
  obtain ⟨m, hm⟩ := listMax_eq_some hv
  obtain ⟨hm_mem, hm_max⟩ := listMax_spec hm
  obtain ⟨p, hp_mem, hp_snd⟩ := List.mem_filterMap.mp hm_mem
  have hfind : ∃ p0, l.find? (fun q => q.2 == some m) = some p0 := by
    cases hf : l.find? (fun q => q.2 == some m) with
    | some p0 => exact ⟨p0, rfl⟩
    | none =>
      exfalso
      have hnone := List.find?_eq_none.mp hf p hp_mem
      apply hnone
      rw [hp_snd]
      exact beq_self_eq_true _
  obtain ⟨p0, hp0⟩ := hfind
  obtain ⟨b, ob⟩ := p0
  have hob : ob = some m := by
    have h1 := List.find?_some hp0
    exact eq_of_beq h1
  subst hob
  refine ⟨b, m, ?_, List.mem_of_find?_eq_some hp0, ?_⟩
  · unfold idxmax
    rw [hm]
    show (l.find? (fun q => q.2 == some m)).map Prod.fst = some b
    rw [hp0]
    rfl
  · intro d w hw
    exact hm_max w (List.mem_filterMap.mpr ⟨(d, some w), hw, rfl⟩)

/-- Auxiliary: on a nonempty list of values, `mode_first` returns a value
of maximal multiplicity, and the smallest such value. -/
theorem mode_first_spec {l : List Int} (hne : l ≠ []) :
    ∃ p, mode_first l = some p ∧ p ∈ l ∧
      ∀ q : Int, l.count q ≤ l.count p ∧
        (l.count q = l.count p → p ≤ q) := by
  obtain ⟨x, hx⟩ := List.exists_mem_of_ne_nil l hne
  have hxd : x ∈ l.dedup := List.mem_dedup.mpr hx
  have hcnt_mem : l.count x ∈ l.dedup.map (fun v => l.count v) :=
    List.mem_map_of_mem _ hxd
  obtain ⟨m, hm⟩ := listMax_eq_some hcnt_mem
  obtain ⟨hm_mem, hm_max⟩ := listMax_spec hm
  obtain ⟨v0, hv0_mem, hv0_cnt⟩ := List.mem_map.mp hm_mem
  have hv0f : v0 ∈ l.dedup.filter (fun v => l.count v == m) :=
    List.mem_filter.mpr ⟨hv0_mem, by rw [hv0_cnt]; exact beq_self_eq_true _⟩
  obtain ⟨p, hp⟩ := listMin_eq_some hv0f
  obtain ⟨hp_mem, hp_min⟩ := listMin_spec hp
  obtain ⟨hp_dedup, hp_cnt_beq⟩ := List.mem_filter.mp hp_mem
  have hpcount : l.count p = m := eq_of_beq hp_cnt_beq
  have hp_in : p ∈ l := List.mem_dedup.mp hp_dedup
  refine ⟨p, ?_, hp_in, ?_⟩
  · unfold mode_first
    rw [hm]
    exact hp
  · intro q
    constructor
    · by_cases hq : q ∈ l
      · have : l.count q ∈ l.dedup.map (fun v => l.count v) :=
          List.mem_map_of_mem _ (List.mem_dedup.mpr hq)
        rw [hpcount]
        exact hm_max _ this
      · rw [List.count_eq_zero.mpr hq]
        exact Nat.zero_le _
    · intro hqc
      by_cases hq : q ∈ l
      · have hqf : q ∈ l.dedup.filter (fun v => l.count v == m) := by
          refine List.mem_filter.mpr ⟨List.mem_dedup.mpr hq, ?_⟩
          rw [hqc, hpcount]
          exact beq_self_eq_true _
        exact hp_min q hqf
      · exfalso
        have h0 : l.count q = 0 := List.count_eq_zero.mpr hq
        have hppos : 0 < l.count p := List.count_pos_iff.mpr hp_in
        omega

/-- Auxiliary: every weekday name lies in the fixed Monday-to-Sunday
order. -/
theorem dayName_mem_weekOrder (d : Fin 7) : dayName d ∈ weekOrder := by
  fin_cases d <;> decide

/-- Auxiliary: a trip present in the data gives its weekday a non-`NaN`
ride count in `weekday_rides`. -/
theorem weekday_rides_entry {df : List Trip} {t : Trip} (ht : t ∈ df) :
    ∃ v : ℚ, (weekdayName t, some v) ∈ weekday_rides df := by
  have hcnt : 0 < df.countP (fun s => weekdayName s == weekdayName t) :=
    List.countP_pos_iff.mpr ⟨t, ht, beq_self_eq_true _⟩
  refine ⟨(df.countP (fun s => weekdayName s == weekdayName t) : ℚ), ?_⟩
  unfold weekday_rides
  refine List.mem_map.mpr
    ⟨weekdayName t, dayName_mem_weekOrder t.pickup_datetime.dow, ?_⟩
  simp only
  rw [if_neg (by omega)]

/-- Auxiliary: a trip present in the data gives its weekday a non-`NaN`
mean fare in `weekday_fare`. -/
theorem weekday_fare_entry {df : List Trip} {t : Trip} (ht : t ∈ df) :
    ∃ v : ℚ, (weekdayName t, some v) ∈ weekday_fare df := by
  have htf : t ∈ df.filter (fun s => weekdayName s == weekdayName t) :=
    List.mem_filter.mpr ⟨ht, beq_self_eq_true _⟩
  have hlen : ((df.filter (fun s => weekdayName s == weekdayName t)).map
      Trip.fare_amount).length ≠ 0 := by
    rw [List.length_map]
    have := List.length_pos.mpr (List.ne_nil_of_mem htf)
    omega
  refine ⟨((df.filter (fun s => weekdayName s == weekdayName t)).map
      Trip.fare_amount).sum /
      (((df.filter (fun s => weekdayName s == weekdayName t)).map
        Trip.fare_amount).length : ℚ), ?_⟩
  unfold weekday_fare
  refine List.mem_map.mpr
    ⟨weekdayName t, dayName_mem_weekOrder t.pickup_datetime.dow, ?_⟩
  simp only
  rw [if_neg hlen]

/-- C9: on any nonempty cleaned dataset, the report's busiest day
(`weekday_rides.idxmax()`) is a weekday whose ride count is maximal among
all weekdays with data, its highest-fare day (`weekday_fare.idxmax()`) is
a weekday whose mean fare is maximal, and its most frequent passenger count
(`mode()[0]`) has maximal multiplicity with ties broken towards the lowest
value; each is derived from the aggregates by argmax/mode alone. -/
theorem c9_report_argmax_and_mode (df : List Trip) (hne : df ≠ []) :
    (∃ b m, idxmax (weekday_rides df) = some b ∧
      (b, some m) ∈ weekday_rides df ∧
      ∀ d w, (d, some w) ∈ weekday_rides df → w ≤ m) ∧
    (∃ b m, idxmax (weekday_fare df) = some b ∧
      (b, some m) ∈ weekday_fare df ∧
      ∀ d w, (d, some w) ∈ weekday_fare df → w ≤ m) ∧
    (∃ p, most_common_passengers df = some p ∧
      p ∈ df.map Trip.passenger_count ∧
      ∀ q : Int, (df.map Trip.passenger_count).count q ≤
          (df.map Trip.passenger_count).count p ∧
        ((df.map Trip.passenger_count).count q =
            (df.map Trip.passenger_count).count p → p ≤ q)) := by
  obtain ⟨t, ht⟩ := List.exists_mem_of_ne_nil df hne
  refine ⟨?_, ?_, ?_⟩
  · obtain ⟨v, hv⟩ := weekday_rides_entry ht
    exact idxmax_spec hv
  · obtain ⟨v, hv⟩ := weekday_fare_entry ht
    exact idxmax_spec hv
  · have hmne : df.map Trip.passenger_count ≠ [] := by
      intro hc
      exact hne (List.map_eq_nil_iff.mp hc)
    exact mode_first_spec hmne

/-- Witness for C9 at the concrete dataset `[monday_trip]`: the hypothesis
that the dataset is nonempty holds and the theorem applies. -/
theorem c9_report_argmax_and_mode_witness :
    (∃ b m, idxmax (weekday_rides [monday_trip]) = some b ∧
      (b, some m) ∈ weekday_rides [monday_trip] ∧
      ∀ d w, (d, some w) ∈ weekday_rides [monday_trip] → w ≤ m) ∧
    (∃ b m, idxmax (weekday_fare [monday_trip]) = some b ∧
      (b, some m) ∈ weekday_fare [monday_trip] ∧
      ∀ d w, (d, some w) ∈ weekday_fare [monday_trip] → w ≤ m) ∧
    (∃ p, most_common_passengers [monday_trip] = some p ∧
      p ∈ [monday_trip].map Trip.passenger_count ∧
      ∀ q : Int, ([monday_trip].map Trip.passenger_count).count q ≤
          ([monday_trip].map Trip.passenger_count).count p ∧
        (([monday_trip].map Trip.passenger_count).count q =
            ([monday_trip].map Trip.passenger_count).count p → p ≤ q)) :=
  c9_report_argmax_and_mode [monday_trip] (List.cons_ne_nil _ _)

end UberAnalysis
